import Mathlib

/-!
Verification of the client-side concurrent upload queue of the media-library
repository. The definitions below are a shallow embedding of the
`MediaProvider` component in `src/templates/Media/Components/MediaGridView.tsx`
(the explicit-trigger context implementation, which the specification follows),
of `getFileKey` from the same file, and of the dropzone validation configured in
`src/templates/Media/Components/MediaUploaderBox.tsx`.

React state updates in the source are functional updaters applied in order on a
single-threaded event loop; the embedding models one provider state record and
each callback site as a state-transition function. The asynchronous parts of
`uploadFile` (the part before `await axios.post`, the progress callback, and the
success / cancel / failure resolutions together with the `finally` block) are
split into separate transition functions, and an `Event` type ranges over every
externally triggerable transition so that reachable states are the fold of an
arbitrary event trace.
-/

set_option maxRecDepth 4000

namespace MediaLibrary

/-- Upload status of a candidate file (`UploadStatus` in `Media.d.ts`). -/
inductive UploadStatus where
  | pending
  | uploading
  | completed
  | failed
  | cancelled
deriving DecidableEq

/-- One entry of the provider's `acceptedFiles` list: the fields of an
`UploadedFile` object that the upload queue reads or writes. The
`cancelTokenSource` field is `some ()` exactly while the axios cancel-token
source assigned in `uploadFile` is attached to the file object. -/
structure UploadedFile where
  id : String
  status : UploadStatus
  progress : Nat
  cancelTokenSource : Option Unit
deriving DecidableEq

/-- The `MediaProvider` state relevant to the upload queue. `uploadQueue` and
`activeUploads` hold file ids: in the source the queue stores the very same
file objects that `acceptedFiles` holds (mutated in place), so queue entries
are identified by id and their status is read through `acceptedFiles`.
`dispatched` is a ghost log recording every `uploadFile` dispatch.
`uploadComplete` is the reported batch summary `{successful, failed}`. -/
structure UploadState where
  acceptedFiles : List UploadedFile
  uploadQueue : List String
  activeUploads : List String
  uploadErrors : List (String × String)
  uploadComplete : Option (Nat × Nat)
  maxConcurrentUploads : Nat
  dispatched : List String
deriving DecidableEq

/-- JS `Set.add`: insert preserving insertion order, no duplicates. -/
def setAdd (l : List String) (x : String) : List String :=
  if x ∈ l then l else l ++ [x]

/-- JS `Set.delete`. -/
def setDelete (l : List String) (x : String) : List String :=
  l.filter (fun y => y ≠ x)

/-- JS `Map.set`: replace any binding for the key. -/
def mapSet (m : List (String × String)) (k v : String) : List (String × String) :=
  m.filter (fun p => p.1 ≠ k) ++ [(k, v)]

/-- JS `Map.delete`. -/
def mapDelete (m : List (String × String)) (k : String) : List (String × String) :=
  m.filter (fun p => p.1 ≠ k)

/-- JS `Map.get`. -/
def mapGet (m : List (String × String)) (k : String) : Option String :=
  (m.find? (fun p => p.1 = k)).map (fun p => p.2)

/-- `acceptedFiles.find(f => f.id === fileId)`. -/
def findFile (s : UploadState) (id : String) : Option UploadedFile :=
  s.acceptedFiles.find? (fun f => f.id = id)

/-- Status of the candidate with the given id, if present. -/
def statusOf (s : UploadState) (id : String) : Option UploadStatus :=
  (findFile s id).map (fun f => f.status)

/-- Progress of the candidate with the given id, if present. -/
def progressOf (s : UploadState) (id : String) : Option Nat :=
  (findFile s id).map (fun f => f.progress)

/-- The recurring source pattern `prev.map(f => f.id === id ? …update f… : f)`. -/
def updateById (files : List UploadedFile) (id : String)
    (upd : UploadedFile → UploadedFile) : List UploadedFile :=
  files.map (fun f => if f.id = id then upd f else f)

/-- Id assignment in `addAcceptedFiles`:
``` `${file.name || "unnamed"}-${Date.now()}-${Math.random()}` ```
with `tag` standing for the `Date.now()`/`Math.random()` suffix. -/
def mkId (name tag : String) : String :=
  (if name = "" then "unnamed" else name) ++ "-" ++ tag

/-- `addAcceptedFiles` (MediaGridView.tsx 1364-1375): each file gets a fresh
id, status `pending`, progress `0`, and is appended to `acceptedFiles`; files
are not queued automatically. -/
def addAcceptedFiles (s : UploadState) (files : List (String × String)) : UploadState :=
  { s with acceptedFiles :=
      s.acceptedFiles ++ files.map (fun nt =>
        { id := mkId nt.1 nt.2, status := UploadStatus.pending,
          progress := 0, cancelTokenSource := none }) }

/-- `uploadFiles` (MediaGridView.tsx 1532-1541): append the files whose id is
not already in the queue; the effect hook does the processing. -/
def uploadFiles (s : UploadState) (ids : List String) : UploadState :=
  let filesToAdd := ids.filter (fun id => id ∉ s.uploadQueue)
  { s with uploadQueue := s.uploadQueue ++ filesToAdd }

/-- The synchronous prefix of `uploadFile` (MediaGridView.tsx 1416-1446): a
cancel-token source is created and attached to the file object, the file's
status becomes `uploading` with progress `0`, and its id joins `activeUploads`;
then the axios call is dispatched (recorded in the ghost `dispatched` log). -/
def uploadFileStart (s : UploadState) (id : String) : UploadState :=
  { s with
    acceptedFiles := updateById s.acceptedFiles id (fun f =>
      { f with cancelTokenSource := some (), status := UploadStatus.uploading,
               progress := 0 }),
    activeUploads := setAdd s.activeUploads id,
    dispatched := s.dispatched ++ [id] }

/-- JS `Math.round((loaded * 100) / total)` on naturals (round half up). -/
def jsRound100 (loaded total : Nat) : Nat :=
  (200 * loaded + total) / (2 * total)

/-- The `onUploadProgress` callback of `uploadFile` (MediaGridView.tsx
1453-1467): when `progressEvent.total` is truthy, set the matching file's
progress to the rounded percentage. There is no status check. -/
def onUploadProgress (s : UploadState) (id : String) (loaded total : Nat) : UploadState :=
  if total = 0 then s
  else
    { s with acceptedFiles := updateById s.acceptedFiles id (fun f =>
        { f with progress := jsRound100 loaded total }) }

/-- Success resolution of `uploadFile` plus its `finally` block (MediaGridView
1470-1471 and 1505-1524): the file is removed from `acceptedFiles` immediately
(its status is never set to `completed`), its id leaves `activeUploads` and the
queue. The error-clearing step in `finally` is guarded by
`!Error || axios.isCancel(Error)` which is always false (`Error` is the global
constructor), so `uploadErrors` is unchanged. -/
def settleSuccess (s : UploadState) (id : String) : UploadState :=
  { s with
    acceptedFiles := s.acceptedFiles.filter (fun f => f.id ≠ id),
    activeUploads := setDelete s.activeUploads id,
    uploadQueue := s.uploadQueue.filter (fun q => q ≠ id) }

/-- The error value observed in `uploadFile`'s catch branch when the outcome is
not a cancellation: whether `axios.isAxiosError(error)` holds, the optional
server body message `error.response?.data?.message`, and `error.message`. -/
structure TransportError where
  isAxiosError : Bool
  serverMessage : Option String
  message : String
deriving DecidableEq

/-- JS `a || b` on an optional string `a` (absent and `""` are falsy). -/
def jsOrElse (a : Option String) (b : String) : String :=
  match a with
  | some v => if v = "" then b else v
  | none => b

/-- `axios.isAxiosError(error) ? error.response?.data?.message || error.message
: "Upload failed"` (MediaGridView.tsx 1488-1490). -/
def errorMessageOf (e : TransportError) : String :=
  if e.isAxiosError then jsOrElse e.serverMessage e.message else "Upload failed"

/-- Failure resolution of `uploadFile` plus its `finally` block (MediaGridView
1487-1503, 1505-1524): the matching file's status becomes `failed` (progress
and cancel token untouched), its error message is recorded, and its id leaves
`activeUploads` and the queue. -/
def settleFailure (s : UploadState) (id : String) (e : TransportError) : UploadState :=
  { s with
    acceptedFiles := updateById s.acceptedFiles id (fun f =>
      { f with status := UploadStatus.failed }),
    uploadErrors := mapSet s.uploadErrors id (errorMessageOf e),
    activeUploads := setDelete s.activeUploads id,
    uploadQueue := s.uploadQueue.filter (fun q => q ≠ id) }

/-- Cancellation resolution of `uploadFile` (`axios.isCancel` catch branch)
plus its `finally` block (MediaGridView 1476-1486, 1505-1524). -/
def settleCancel (s : UploadState) (id : String) : UploadState :=
  { s with
    acceptedFiles := updateById s.acceptedFiles id (fun f =>
      { f with status := UploadStatus.cancelled }),
    activeUploads := setDelete s.activeUploads id,
    uploadQueue := s.uploadQueue.filter (fun q => q ≠ id) }

/-- `cancelUpload` (MediaGridView.tsx 1543-1573): signal the cancel token if
present (a transport side effect), drop the id from `activeUploads` and the
queue, and set the matching file's status to `cancelled`. The token field
itself is not cleared. The trailing `setTimeout(() => processUploadQueue(), …)`
invokes the documented no-op stub at line 1528. -/
def cancelUpload (s : UploadState) (id : String) : UploadState :=
  { s with
    activeUploads := setDelete s.activeUploads id,
    uploadQueue := s.uploadQueue.filter (fun q => q ≠ id),
    acceptedFiles := updateById s.acceptedFiles id (fun f =>
      { f with status := UploadStatus.cancelled }) }

/-- `cancelAllUploads` (MediaGridView.tsx 1611-1642). -/
def cancelAllUploads (s : UploadState) : UploadState :=
  { s with
    activeUploads := [],
    uploadQueue := [],
    acceptedFiles := s.acceptedFiles.map (fun f =>
      if f.status = UploadStatus.uploading ∨ f.status = UploadStatus.pending then
        { f with status := UploadStatus.cancelled }
      else f),
    uploadErrors := [] }

/-- `retryUpload` (MediaGridView.tsx 1575-1609): only when the file exists with
status `failed` or `cancelled` does it reset status/progress, re-enter the
queue if absent, and delete the stored error; otherwise nothing changes. -/
def retryUpload (s : UploadState) (id : String) : UploadState :=
  match findFile s id with
  | some f =>
      if f.status = UploadStatus.failed ∨ f.status = UploadStatus.cancelled then
        { s with
          acceptedFiles := updateById s.acceptedFiles id (fun g =>
            { g with status := UploadStatus.pending, progress := 0 }),
          uploadQueue :=
            if id ∈ s.uploadQueue then s.uploadQueue else s.uploadQueue ++ [id],
          uploadErrors := mapDelete s.uploadErrors id }
      else s
  | none => s

/-- `removeAcceptedFile` (MediaGridView.tsx 1388-1397): look up the file at the
index; when it has a truthy id, run `cancelUpload` on it and filter the queue
again, then remove the entry at the index. -/
def removeAcceptedFile (s : UploadState) (i : Nat) : UploadState :=
  match s.acceptedFiles.get? i with
  | some f =>
      if f.id ≠ "" then
        let s1 := cancelUpload s f.id
        let s2 := { s1 with uploadQueue := s1.uploadQueue.filter (fun q => q ≠ f.id) }
        { s2 with acceptedFiles := s2.acceptedFiles.eraseIdx i }
      else { s with acceptedFiles := s.acceptedFiles.eraseIdx i }
  | none => { s with acceptedFiles := s.acceptedFiles.eraseIdx i }

/-- `clearAllFiles` (MediaGridView.tsx 1403-1410). -/
def clearAllFiles (s : UploadState) : UploadState :=
  let s1 := cancelAllUploads s
  { s1 with acceptedFiles := [], uploadQueue := [], uploadErrors := [] }

/-- The upload-completion effect (MediaGridView.tsx 1767-1791): when
`activeUploads` and the queue are empty, count the accepted files whose status
is `completed` or `failed`; if any exist and no summary was reported yet,
report `{successful, failed}`. -/
def checkUploadComplete (s : UploadState) : UploadState :=
  if s.activeUploads.length = 0 ∧ s.uploadQueue.length = 0 then
    let allFiles := s.acceptedFiles.filter (fun f =>
      f.status = UploadStatus.completed ∨ f.status = UploadStatus.failed)
    if allFiles.length > 0 then
      let successful := (allFiles.filter (fun f => f.status = UploadStatus.completed)).length
      let failed := (allFiles.filter (fun f => f.status = UploadStatus.failed)).length
      if s.uploadComplete = none ∧ (successful > 0 ∨ failed > 0) then
        { s with uploadComplete := some (successful, failed) }
      else s
    else s
  else s

/-- The delayed sweep inside the completion effect (MediaGridView.tsx
1783-1787): completed/failed files are removed from the visible set. -/
def sweepCompleted (s : UploadState) : UploadState :=
  { s with acceptedFiles := s.acceptedFiles.filter (fun f =>
      f.status ≠ UploadStatus.completed ∧ f.status ≠ UploadStatus.failed) }

/-- One pass of `processQueue`, the queue-processing effect (MediaGridView.tsx
1794-1818): bail out when the queue is empty or no slot is free; otherwise
admit the first `maxConcurrentUploads - activeUploads.size` pending queue
entries in FIFO order, dispatching `uploadFile` for each. -/
def processQueue (s : UploadState) : UploadState :=
  if s.uploadQueue.length = 0 ∨ s.activeUploads.length ≥ s.maxConcurrentUploads then s
  else
    let pendingIds := s.uploadQueue.filter (fun id =>
      statusOf s id = some UploadStatus.pending)
    let availableSlots := s.maxConcurrentUploads - s.activeUploads.length
    let filesToUpload := pendingIds.take availableSlots
    filesToUpload.foldl uploadFileStart s

/-- Every externally triggerable transition of the provider: the file
management and upload actions exposed in the context value, the effect passes,
and the transport callbacks/resolutions of in-flight axios calls. -/
inductive Event where
  | addFiles (files : List (String × String))
  | enqueue (ids : List String)
  | process
  | progress (id : String) (loaded total : Nat)
  | succeed (id : String)
  | settleCancelled (id : String)
  | fail (id : String) (e : TransportError)
  | cancel (id : String)
  | cancelAll
  | retry (id : String)
  | removeAt (i : Nat)
  | clearAll
  | checkComplete
  | sweep

/-- Apply one event to the provider state. -/
def step (s : UploadState) : Event → UploadState
  | Event.addFiles files => addAcceptedFiles s files
  | Event.enqueue ids => uploadFiles s ids
  | Event.process => processQueue s
  | Event.progress id loaded total => onUploadProgress s id loaded total
  | Event.succeed id => settleSuccess s id
  | Event.settleCancelled id => settleCancel s id
  | Event.fail id e => settleFailure s id e
  | Event.cancel id => cancelUpload s id
  | Event.cancelAll => cancelAllUploads s
  | Event.retry id => retryUpload s id
  | Event.removeAt i => removeAcceptedFile s i
  | Event.clearAll => clearAllFiles s
  | Event.checkComplete => checkUploadComplete s
  | Event.sweep => sweepCompleted s

/-- The provider's initial state (MediaGridView.tsx 1282-1296) with the given
`maxConcurrentUploads` configuration value. -/
def initState (maxConc : Nat) : UploadState :=
  { acceptedFiles := [], uploadQueue := [], activeUploads := [],
    uploadErrors := [], uploadComplete := none,
    maxConcurrentUploads := maxConc, dispatched := [] }

/-- The state after an event trace from the initial state. -/
def run (maxConc : Nat) (evs : List Event) : UploadState :=
  evs.foldl step (initState maxConc)

/-- `defaultUploadConfig.maxConcurrentUploads` (MediaGridView.tsx 1210-1223). -/
def defaultMaxConcurrentUploads : Nat := 3

end MediaLibrary

namespace MediaLibrary

/-! ### Basic facts about the JS set/map helpers -/

theorem length_setAdd_le (l : List String) (x : String) :
    (setAdd l x).length ≤ l.length + 1 := by
  unfold setAdd
  split
  · exact Nat.le_succ _
  · simp

theorem length_setDelete_le (l : List String) (x : String) :
    (setDelete l x).length ≤ l.length :=
  List.length_filter_le _ _

theorem find?_filter_of_imp {α : Type} (l : List α) (p q : α → Bool)
    (h : ∀ x, p x = true → q x = true) :
    (l.filter q).find? p = l.find? p := by
  induction l with
  | nil => rfl
  | cons a t ih =>
      by_cases hq : q a = true
      · rw [List.filter_cons_of_pos hq]
        by_cases hp : p a = true
        · rw [List.find?_cons_of_pos _ hp, List.find?_cons_of_pos _ hp]
        · rw [List.find?_cons_of_neg _ hp, List.find?_cons_of_neg _ hp, ih]
      · rw [List.filter_cons_of_neg hq]
        have hp : ¬ p a = true := fun hpa => hq (h a hpa)
        rw [List.find?_cons_of_neg _ hp, ih]

theorem mapGet_mapSet_self (m : List (String × String)) (k v : String) :
    mapGet (mapSet m k v) k = some v := by
  unfold mapGet mapSet
  rw [List.find?_append]
  have h1 : (m.filter (fun p => p.1 ≠ k)).find? (fun p => p.1 = k) = none := by
    rw [List.find?_eq_none]
    intro p hp
    have h2 := (List.mem_filter.mp hp).2
    simp only [decide_not, Bool.not_eq_true', decide_eq_false_iff_not] at h2
    simp [h2]
  rw [h1]
  simp

theorem mapGet_mapSet_ne (m : List (String × String)) (k v j : String) (h : j ≠ k) :
    mapGet (mapSet m k v) j = mapGet m j := by
  unfold mapGet mapSet
  rw [List.find?_append]
  have h1 : (m.filter (fun p => p.1 ≠ k)).find? (fun p => p.1 = j)
      = m.find? (fun p => p.1 = j) := by
    apply find?_filter_of_imp
    intro p hp
    have h2 : p.1 = j := by simpa using hp
    simp [h2, h]
  have h2 : ([(k, v)].find? (fun p => p.1 = j)) = none := by
    rw [List.find?_eq_none]
    intro p hp
    rw [List.mem_singleton] at hp
    subst hp
    simp only [decide_eq_true_eq]
    exact fun hkj => h hkj.symm
  rw [h1, h2]
  cases m.find? (fun p => p.1 = j) <;> simp

theorem mapGet_mapDelete_self (m : List (String × String)) (k : String) :
    mapGet (mapDelete m k) k = none := by
  unfold mapGet mapDelete
  have h1 : (m.filter (fun p => p.1 ≠ k)).find? (fun p => p.1 = k) = none := by
    rw [List.find?_eq_none]
    intro p hp
    have h2 := (List.mem_filter.mp hp).2
    simp only [decide_not, Bool.not_eq_true', decide_eq_false_iff_not] at h2
    simp [h2]
  rw [h1]
  rfl

/-! ### Facts about `updateById` -/

theorem find?_updateById_self (l : List UploadedFile) (id : String)
    (upd : UploadedFile → UploadedFile) (h : ∀ f, (upd f).id = f.id) :
    (updateById l id upd).find? (fun f => f.id = id)
      = (l.find? (fun f => f.id = id)).map (fun f => if f.id = id then upd f else f) := by
  unfold updateById
  rw [List.find?_map]
  have hfun : ((fun g : UploadedFile => decide (g.id = id)) ∘
      (fun f => if f.id = id then upd f else f))
      = fun g : UploadedFile => decide (g.id = id) := by
    funext f
    by_cases hf : f.id = id <;> simp [Function.comp, hf, h f]
  rw [hfun]

theorem find?_updateById_eq_some (l : List UploadedFile) (id : String)
    (upd : UploadedFile → UploadedFile) (h : ∀ f, (upd f).id = f.id)
    (f : UploadedFile) (hf : l.find? (fun g => g.id = id) = some f) :
    (updateById l id upd).find? (fun g => g.id = id) = some (upd f) := by
  rw [find?_updateById_self l id upd h, hf]
  have hid : f.id = id := by simpa using List.find?_some hf
  simp [hid]

theorem find?_updateById_ne (l : List UploadedFile) (id : String)
    (upd : UploadedFile → UploadedFile) (h : ∀ f, (upd f).id = f.id)
    (j : String) (hj : j ≠ id) :
    (updateById l id upd).find? (fun g => g.id = j) = l.find? (fun g => g.id = j) := by
  unfold updateById
  rw [List.find?_map]
  have hpred : ((fun g : UploadedFile => decide (g.id = j)) ∘
      (fun f => if f.id = id then upd f else f))
      = fun f : UploadedFile => decide (f.id = j) := by
    funext f
    by_cases hf : f.id = id <;> simp [Function.comp, hf, h f]
  rw [hpred]
  cases hfind : l.find? (fun g => decide (g.id = j)) with
  | none => simp
  | some g =>
      have hg : g.id = j := by simpa using List.find?_some hfind
      simp [hg, hj]

theorem map_proj_updateById {β : Type} (l : List UploadedFile) (id : String)
    (upd : UploadedFile → UploadedFile) (proj : UploadedFile → β)
    (h : ∀ f, proj (upd f) = proj f) :
    (updateById l id upd).map proj = l.map proj := by
  unfold updateById
  rw [List.map_map]
  congr 1
  funext f
  by_cases hf : f.id = id <;> simp [Function.comp, hf, h f]

end MediaLibrary

namespace MediaLibrary

/-! ### The reachable-state invariant -/

/-- Per-file invariant maintained by every provider transition: a file in
status `uploading` carries a cancel token, and no file ever carries status
`completed` — the success resolution removes the file from `acceptedFiles`
instead of marking it completed. -/
def FileOk (f : UploadedFile) : Prop :=
  (f.status = UploadStatus.uploading → f.cancelTokenSource.isSome) ∧
  f.status ≠ UploadStatus.completed

/-- State invariant: the active set respects the concurrency bound and every
accepted file satisfies `FileOk`. -/
def Inv (s : UploadState) : Prop :=
  s.activeUploads.length ≤ s.maxConcurrentUploads ∧
  ∀ f ∈ s.acceptedFiles, FileOk f

theorem fileOk_of_map {l : List UploadedFile} {ψ : UploadedFile → UploadedFile}
    (h : ∀ f ∈ l, FileOk f) (hψ : ∀ f, FileOk f → FileOk (ψ f)) :
    ∀ f ∈ l.map ψ, FileOk f := by
  intro f hf
  rcases List.mem_map.mp hf with ⟨g, hg, rfl⟩
  exact hψ g (h g hg)

theorem fileOk_of_sublist {l₁ l₂ : List UploadedFile} (hs : l₁.Sublist l₂)
    (h : ∀ f ∈ l₂, FileOk f) : ∀ f ∈ l₁, FileOk f :=
  fun f hf => h f (hs.subset hf)

/-! ### Facts about folding `uploadFileStart` over the admitted batch -/

theorem foldl_start_maxConc (l : List String) :
    ∀ s : UploadState,
      (l.foldl uploadFileStart s).maxConcurrentUploads = s.maxConcurrentUploads := by
  induction l with
  | nil => intro s; rfl
  | cons a t ih => intro s; rw [List.foldl_cons, ih]; rfl

theorem foldl_start_queue (l : List String) :
    ∀ s : UploadState, (l.foldl uploadFileStart s).uploadQueue = s.uploadQueue := by
  induction l with
  | nil => intro s; rfl
  | cons a t ih => intro s; rw [List.foldl_cons, ih]; rfl

theorem foldl_start_dispatched (l : List String) :
    ∀ s : UploadState, (l.foldl uploadFileStart s).dispatched = s.dispatched ++ l := by
  induction l with
  | nil => intro s; simp
  | cons a t ih =>
      intro s
      rw [List.foldl_cons, ih]
      simp [uploadFileStart]

theorem foldl_start_active_len (l : List String) :
    ∀ s : UploadState,
      ((l.foldl uploadFileStart s).activeUploads).length
        ≤ s.activeUploads.length + l.length := by
  induction l with
  | nil => intro s; simp
  | cons a t ih =>
      intro s
      rw [List.foldl_cons]
      refine Nat.le_trans (ih _) ?_
      have h1 : (uploadFileStart s a).activeUploads.length
          ≤ s.activeUploads.length + 1 := length_setAdd_le _ _
      simp only [List.length_cons]
      omega

theorem foldl_start_preserves {P : UploadState → Prop}
    (h : ∀ st id, P st → P (uploadFileStart st id)) (l : List String) :
    ∀ s : UploadState, P s → P (l.foldl uploadFileStart s) := by
  induction l with
  | nil => intro s hs; exact hs
  | cons a t ih => intro s hs; exact ih _ (h s a hs)

theorem fileOk_uploadFileStart (st : UploadState) (id : String)
    (h : ∀ f ∈ st.acceptedFiles, FileOk f) :
    ∀ f ∈ (uploadFileStart st id).acceptedFiles, FileOk f := by
  refine fileOk_of_map h ?_
  intro f hfOk
  by_cases hf : f.id = id
  · rw [if_pos hf]
    exact ⟨fun _ => rfl, fun hc => nomatch hc⟩
  · rw [if_neg hf]
    exact hfOk

/-! ### Preservation of the invariant by every event -/

theorem inv_addAcceptedFiles (s : UploadState) (files : List (String × String))
    (h : Inv s) : Inv (addAcceptedFiles s files) := by
  obtain ⟨h1, h2⟩ := h
  refine ⟨h1, ?_⟩
  intro f hf
  simp only [addAcceptedFiles, List.mem_append] at hf
  rcases hf with hf | hf
  · exact h2 f hf
  · rcases List.mem_map.mp hf with ⟨nt, _, rfl⟩
    exact ⟨fun hc => (nomatch hc), fun hc => nomatch hc⟩

theorem inv_uploadFiles (s : UploadState) (ids : List String)
    (h : Inv s) : Inv (uploadFiles s ids) :=
  ⟨h.1, h.2⟩

theorem inv_processQueue (s : UploadState) (h : Inv s) : Inv (processQueue s) := by
  obtain ⟨h1, h2⟩ := h
  unfold processQueue
  split
  · exact ⟨h1, h2⟩
  · next hguard =>
      push_neg at hguard
      obtain ⟨-, hlt⟩ := hguard
      dsimp only
      constructor
      · rw [foldl_start_maxConc]
        refine Nat.le_trans (foldl_start_active_len _ _) ?_
        have hlen : ((s.uploadQueue.filter (fun id =>
            statusOf s id = some UploadStatus.pending)).take
              (s.maxConcurrentUploads - s.activeUploads.length)).length
            ≤ s.maxConcurrentUploads - s.activeUploads.length := by
          rw [List.length_take]
          exact Nat.min_le_left _ _
        omega
      · exact foldl_start_preserves
          (fun st id hst => fileOk_uploadFileStart st id hst) _ _ h2

theorem inv_onUploadProgress (s : UploadState) (id : String) (loaded total : Nat)
    (h : Inv s) : Inv (onUploadProgress s id loaded total) := by
  obtain ⟨h1, h2⟩ := h
  unfold onUploadProgress
  split
  · exact ⟨h1, h2⟩
  · refine ⟨h1, fileOk_of_map h2 ?_⟩
    intro f hfOk
    by_cases hid : f.id = id
    · rw [if_pos hid]
      exact ⟨fun hu => hfOk.1 hu, fun hc => hfOk.2 hc⟩
    · rw [if_neg hid]
      exact hfOk

theorem inv_settleSuccess (s : UploadState) (id : String)
    (h : Inv s) : Inv (settleSuccess s id) := by
  obtain ⟨h1, h2⟩ := h
  exact ⟨Nat.le_trans (length_setDelete_le _ _) h1,
    fileOk_of_sublist (List.filter_sublist _) h2⟩

theorem inv_settleFailure (s : UploadState) (id : String) (e : TransportError)
    (h : Inv s) : Inv (settleFailure s id e) := by
  obtain ⟨h1, h2⟩ := h
  refine ⟨Nat.le_trans (length_setDelete_le _ _) h1, fileOk_of_map h2 ?_⟩
  intro f hfOk
  by_cases hid : f.id = id
  · rw [if_pos hid]
    exact ⟨fun hu => (nomatch hu), fun hc => nomatch hc⟩
  · rw [if_neg hid]
    exact hfOk

theorem inv_settleCancel (s : UploadState) (id : String)
    (h : Inv s) : Inv (settleCancel s id) := by
  obtain ⟨h1, h2⟩ := h
  refine ⟨Nat.le_trans (length_setDelete_le _ _) h1, fileOk_of_map h2 ?_⟩
  intro f hfOk
  by_cases hid : f.id = id
  · rw [if_pos hid]
    exact ⟨fun hu => (nomatch hu), fun hc => nomatch hc⟩
  · rw [if_neg hid]
    exact hfOk

theorem inv_cancelUpload (s : UploadState) (id : String)
    (h : Inv s) : Inv (cancelUpload s id) := by
  obtain ⟨h1, h2⟩ := h
  refine ⟨Nat.le_trans (length_setDelete_le _ _) h1, fileOk_of_map h2 ?_⟩
  intro f hfOk
  by_cases hid : f.id = id
  · rw [if_pos hid]
    exact ⟨fun hu => (nomatch hu), fun hc => nomatch hc⟩
  · rw [if_neg hid]
    exact hfOk

theorem inv_cancelAllUploads (s : UploadState) (h : Inv s) :
    Inv (cancelAllUploads s) := by
  obtain ⟨-, h2⟩ := h
  refine ⟨Nat.zero_le _, fileOk_of_map h2 ?_⟩
  intro f hfOk
  by_cases hc : f.status = UploadStatus.uploading ∨ f.status = UploadStatus.pending
  · rw [if_pos hc]
    exact ⟨fun hu => (nomatch hu), fun hco => nomatch hco⟩
  · rw [if_neg hc]
    exact hfOk

theorem inv_retryUpload (s : UploadState) (id : String) (h : Inv s) :
    Inv (retryUpload s id) := by
  obtain ⟨h1, h2⟩ := h
  unfold retryUpload
  split
  · split
    · refine ⟨h1, fileOk_of_map h2 ?_⟩
      intro f hfOk
      by_cases hid : f.id = id
      · rw [if_pos hid]
        exact ⟨fun hu => (nomatch hu), fun hc => nomatch hc⟩
      · rw [if_neg hid]
        exact hfOk
    · exact ⟨h1, h2⟩
  · exact ⟨h1, h2⟩

theorem inv_removeAcceptedFile (s : UploadState) (i : Nat) (h : Inv s) :
    Inv (removeAcceptedFile s i) := by
  obtain ⟨h1, h2⟩ := h
  unfold removeAcceptedFile
  split
  · next f heq =>
      split
      · dsimp only
        have hc := inv_cancelUpload s f.id ⟨h1, h2⟩
        exact ⟨hc.1, fileOk_of_sublist (List.eraseIdx_sublist _ _) hc.2⟩
      · exact ⟨h1, fileOk_of_sublist (List.eraseIdx_sublist _ _) h2⟩
  · exact ⟨h1, fileOk_of_sublist (List.eraseIdx_sublist _ _) h2⟩

theorem inv_clearAllFiles (s : UploadState) (_ : Inv s) : Inv (clearAllFiles s) := by
  refine ⟨Nat.zero_le _, ?_⟩
  intro f hf
  simp [clearAllFiles] at hf

theorem inv_checkUploadComplete (s : UploadState) (h : Inv s) :
    Inv (checkUploadComplete s) := by
  obtain ⟨h1, h2⟩ := h
  unfold checkUploadComplete
  split
  · dsimp only
    split
    · split
      · exact ⟨h1, h2⟩
      · exact ⟨h1, h2⟩
    · exact ⟨h1, h2⟩
  · exact ⟨h1, h2⟩

theorem inv_sweepCompleted (s : UploadState) (h : Inv s) : Inv (sweepCompleted s) :=
  ⟨h.1, fileOk_of_sublist (List.filter_sublist _) h.2⟩

/-- Every event preserves the invariant. -/
theorem inv_step (s : UploadState) (e : Event) (h : Inv s) : Inv (step s e) := by
  cases e with
  | addFiles files => exact inv_addAcceptedFiles s files h
  | enqueue ids => exact inv_uploadFiles s ids h
  | process => exact inv_processQueue s h
  | progress id loaded total => exact inv_onUploadProgress s id loaded total h
  | succeed id => exact inv_settleSuccess s id h
  | settleCancelled id => exact inv_settleCancel s id h
  | fail id e => exact inv_settleFailure s id e h
  | cancel id => exact inv_cancelUpload s id h
  | cancelAll => exact inv_cancelAllUploads s h
  | retry id => exact inv_retryUpload s id h
  | removeAt i => exact inv_removeAcceptedFile s i h
  | clearAll => exact inv_clearAllFiles s h
  | checkComplete => exact inv_checkUploadComplete s h
  | sweep => exact inv_sweepCompleted s h

/-- The invariant holds in every reachable state. -/
theorem inv_run (maxConc : Nat) (evs : List Event) : Inv (run maxConc evs) := by
  have hinit : Inv (initState maxConc) := by
    refine ⟨Nat.zero_le _, ?_⟩
    intro f hf
    simp [initState] at hf
  unfold run
  generalize initState maxConc = s at hinit ⊢
  induction evs generalizing s with
  | nil => exact hinit
  | cons e t ih => exact ih _ (inv_step s e hinit)

/-! ### The concurrency bound is never reconfigured by an event -/

theorem processQueue_maxConc (s : UploadState) :
    (processQueue s).maxConcurrentUploads = s.maxConcurrentUploads := by
  unfold processQueue
  split
  · rfl
  · dsimp only
    rw [foldl_start_maxConc]

theorem onUploadProgress_maxConc (s : UploadState) (id : String) (loaded total : Nat) :
    (onUploadProgress s id loaded total).maxConcurrentUploads
      = s.maxConcurrentUploads := by
  unfold onUploadProgress
  split <;> rfl

theorem retryUpload_maxConc (s : UploadState) (id : String) :
    (retryUpload s id).maxConcurrentUploads = s.maxConcurrentUploads := by
  unfold retryUpload
  split
  · split <;> rfl
  · rfl

theorem removeAcceptedFile_maxConc (s : UploadState) (i : Nat) :
    (removeAcceptedFile s i).maxConcurrentUploads = s.maxConcurrentUploads := by
  unfold removeAcceptedFile
  split
  · split <;> rfl
  · rfl

theorem checkUploadComplete_maxConc (s : UploadState) :
    (checkUploadComplete s).maxConcurrentUploads = s.maxConcurrentUploads := by
  unfold checkUploadComplete
  split
  · dsimp only
    split
    · split <;> rfl
    · rfl
  · rfl

/-- No event changes the configured concurrency bound. -/
theorem step_maxConc (s : UploadState) (e : Event) :
    (step s e).maxConcurrentUploads = s.maxConcurrentUploads := by
  cases e with
  | process => exact processQueue_maxConc s
  | progress id loaded total => exact onUploadProgress_maxConc s id loaded total
  | retry id => exact retryUpload_maxConc s id
  | removeAt i => exact removeAcceptedFile_maxConc s i
  | checkComplete => exact checkUploadComplete_maxConc s
  | _ => rfl

/-- The concurrency bound of a reachable state is the configured one. -/
theorem run_maxConc (maxConc : Nat) (evs : List Event) :
    (run maxConc evs).maxConcurrentUploads = maxConc := by
  unfold run
  have h : (initState maxConc).maxConcurrentUploads = maxConc := rfl
  generalize initState maxConc = s at h ⊢
  induction evs generalizing s with
  | nil => exact h
  | cons e t ih => exact ih _ ((step_maxConc s e).trans h)

end MediaLibrary

namespace MediaLibrary

/-! ### Status and lookup lemmas around dispatching -/

theorem findFile_uploadFileStart_self (s : UploadState) (id : String)
    (f : UploadedFile) (hf : findFile s id = some f) :
    findFile (uploadFileStart s id) id
      = some { f with cancelTokenSource := some (), status := UploadStatus.uploading,
                      progress := 0 } := by
  unfold findFile uploadFileStart at *
  exact find?_updateById_eq_some s.acceptedFiles id
    (fun f => { f with cancelTokenSource := some (), status := UploadStatus.uploading,
                       progress := 0 })
    (fun g => rfl) f hf

theorem findFile_uploadFileStart_ne (s : UploadState) (id j : String) (hj : j ≠ id) :
    findFile (uploadFileStart s id) j = findFile s j := by
  unfold findFile uploadFileStart
  exact find?_updateById_ne s.acceptedFiles id
    (fun f => { f with cancelTokenSource := some (), status := UploadStatus.uploading,
                       progress := 0 })
    (fun g => rfl) j hj

theorem findFile_uploadFileStart_isSome (s : UploadState) (id j : String)
    (h : (findFile s j).isSome) : (findFile (uploadFileStart s id) j).isSome := by
  by_cases hj : j = id
  · subst hj
    rcases Option.isSome_iff_exists.mp h with ⟨f, hf⟩
    rw [findFile_uploadFileStart_self s j f hf]
    rfl
  · rw [findFile_uploadFileStart_ne s id j hj]
    exact h

theorem statusOf_uploadFileStart_self (s : UploadState) (id : String)
    (h : (findFile s id).isSome) :
    statusOf (uploadFileStart s id) id = some UploadStatus.uploading := by
  rcases Option.isSome_iff_exists.mp h with ⟨f, hf⟩
  unfold statusOf
  rw [findFile_uploadFileStart_self s id f hf]
  rfl

theorem statusOf_uploadFileStart_uploading (s : UploadState) (id j : String)
    (h : statusOf s j = some UploadStatus.uploading) :
    statusOf (uploadFileStart s id) j = some UploadStatus.uploading := by
  by_cases hj : j = id
  · subst hj
    apply statusOf_uploadFileStart_self
    unfold statusOf at h
    cases hfind : findFile s j with
    | none => rw [hfind] at h; exact absurd h (by simp)
    | some f => rfl
  · unfold statusOf
    rw [findFile_uploadFileStart_ne s id j hj]
    exact h

theorem statusOf_foldl_start_uploading (l : List String) :
    ∀ (s : UploadState) (j : String),
      statusOf s j = some UploadStatus.uploading →
      statusOf (l.foldl uploadFileStart s) j = some UploadStatus.uploading := by
  induction l with
  | nil => intro s j h; exact h
  | cons a t ih =>
      intro s j h
      rw [List.foldl_cons]
      exact ih _ j (statusOf_uploadFileStart_uploading s a j h)

theorem findFile_foldl_start_isSome (l : List String) :
    ∀ (s : UploadState) (j : String),
      (findFile s j).isSome → (findFile (l.foldl uploadFileStart s) j).isSome := by
  induction l with
  | nil => intro s j h; exact h
  | cons a t ih =>
      intro s j h
      rw [List.foldl_cons]
      exact ih _ j (findFile_uploadFileStart_isSome s a j h)

theorem statusOf_foldl_start_of_mem (l : List String) :
    ∀ (s : UploadState) (j : String), j ∈ l → (findFile s j).isSome →
      statusOf (l.foldl uploadFileStart s) j = some UploadStatus.uploading := by
  induction l with
  | nil => intro s j hmem _; exact absurd hmem (List.not_mem_nil j)
  | cons a t ih =>
      intro s j hmem hsome
      rw [List.foldl_cons]
      rcases List.mem_cons.mp hmem with rfl | hmem'
      · exact statusOf_foldl_start_uploading t _ j
          (statusOf_uploadFileStart_self s j hsome)
      · exact ih _ j hmem' (findFile_uploadFileStart_isSome s a j hsome)

theorem mem_active_foldl_start_of_mem (l : List String) :
    ∀ (s : UploadState) (j : String), j ∈ l ∨ j ∈ s.activeUploads →
      j ∈ (l.foldl uploadFileStart s).activeUploads := by
  induction l with
  | nil =>
      intro s j h
      rcases h with h | h
      · exact absurd h (List.not_mem_nil j)
      · exact h
  | cons a t ih =>
      intro s j h
      rw [List.foldl_cons]
      have hmem : j ∈ t ∨ j ∈ (uploadFileStart s a).activeUploads := by
        rcases h with h | h
        · rcases List.mem_cons.mp h with rfl | h'
          · right
            show j ∈ setAdd s.activeUploads j
            unfold setAdd
            split
            · assumption
            · simp
          · left; exact h'
        · right
          show j ∈ setAdd s.activeUploads a
          unfold setAdd
          split
          · exact h
          · exact List.mem_append_left _ h
      exact ih _ j hmem

end MediaLibrary

namespace MediaLibrary

/-! ### `getFileKey` (MediaGridView.tsx 1305-1316) -/

/-- A non-null browser `File` as read by `getFileKey`: its `name`, `size` and
`lastModified` fields. -/
structure FileInfo where
  name : String
  size : Nat
  lastModified : Nat
deriving DecidableEq

/-- `getFileKey` for a non-null file, with `now` standing for the value
`Date.now()` would return at the moment of the call. JS falsiness: an empty
`name` falls back to `unnamed-file-${Date.now()}`, and a `lastModified` of `0`
falls back to `Date.now()`; `file.size ?? 0` keeps the size, which is always
present on a non-null `File`. -/
def getFileKey (file : FileInfo) (now : Nat) : String :=
  let fileName := if file.name = "" then "unnamed-file-" ++ toString now else file.name
  let fileSize := file.size
  let lastModified := if file.lastModified = 0 then now else file.lastModified
  fileName ++ "-" ++ toString fileSize ++ "-" ++ toString lastModified

/-! ### Dropzone validation (MediaUploaderBox.tsx 52-71) -/

/-- A (non-null) file as handed to the dropzone: name, byte size, MIME type. -/
structure BrowserFile where
  name : String
  size : Nat
  mime : String
deriving DecidableEq

/-- The subset of `UploadConfig` consumed by the dropzone validation. -/
structure DropzoneOptions where
  maxFileSize : Nat
  acceptedFileTypes : List String
deriving DecidableEq

/-- react-dropzone's default `minSize`. MediaUploaderBox.tsx passes no
`minSize` (and no custom `validator`) to `useDropzone`, so this default
applies. -/
def dropzoneDefaultMinSize : Nat := 0

/-- Modelled from the spec: the `useDropzone` validation is performed by the
external react-dropzone library, whose code is not part of this repository.
MediaUploaderBox.tsx 52-56 configures it with
`accept := uploadConfig.acceptedFileTypes`, `maxSize := uploadConfig.maxFileSize`
and nothing else, so by the library's documented contract a file is rejected
with code `file-invalid-type` when its MIME type is not accepted, with
`file-too-large` when its size exceeds `maxSize`, and with `file-too-small`
when its size is below `minSize` — here the library default `0`. (The
`maxFiles` count constraint is independent of a single file's content and is
not modelled.) -/
def dropzoneErrors (cfg : DropzoneOptions) (f : BrowserFile) : List String :=
  (if f.mime ∈ cfg.acceptedFileTypes then [] else ["file-invalid-type"]) ++
  (if cfg.maxFileSize < f.size then ["file-too-large"] else []) ++
  (if f.size < dropzoneDefaultMinSize then ["file-too-small"] else [])

/-- A file passes validation when it produced no error codes. -/
def dropzoneAccepts (cfg : DropzoneOptions) (f : BrowserFile) : Bool :=
  dropzoneErrors cfg f = []

/-- The drop handling wired in MediaUploaderBox.tsx 57-71: validated files are
split into the accepted list (handed to `addAcceptedFiles`, i.e. they become
upload candidates) and the rejected list paired with the error codes (handed to
`addRejectedFiles`). -/
def onDrop (cfg : DropzoneOptions) (files : List BrowserFile) :
    List BrowserFile × List (BrowserFile × List String) :=
  (files.filter (fun f => dropzoneAccepts cfg f),
   (files.filter (fun f => ¬ dropzoneAccepts cfg f)).map
     (fun f => (f, dropzoneErrors cfg f)))

/-- `defaultUploadConfig.maxFileSize` (MediaGridView.tsx 1210-1223): 10 MB. -/
def defaultMaxFileSize : Nat := 10 * 1024 * 1024

/-- `defaultUploadConfig.acceptedFileTypes` (MediaGridView.tsx 1210-1223). -/
def defaultAcceptedFileTypes : List String :=
  ["image/jpeg", "image/png", "image/gif", "image/webp", "image/svg+xml",
   "application/pdf"]

/-- The dropzone options induced by `defaultUploadConfig`. -/
def defaultDropzoneOptions : DropzoneOptions :=
  { maxFileSize := defaultMaxFileSize,
    acceptedFileTypes := defaultAcceptedFileTypes }

end MediaLibrary

namespace MediaLibrary

/-! ### Scenario traces -/

/-- Scenario A of the specification: with the default concurrency bound 3,
five candidates are added, all five are enqueued, and one admission pass
runs. -/
def scenarioATrace : List Event :=
  [Event.addFiles [("a", "1"), ("b", "2"), ("c", "3"), ("d", "4"), ("e", "5")],
   Event.enqueue ["a-1", "b-2", "c-3", "d-4", "e-5"],
   Event.process]

/-- Scenario C of the specification, continuing Scenario A: the three admitted
uploads succeed, the freed slots admit the remaining two, both of those fail,
and the completion effect runs. -/
def scenarioCTrace : List Event :=
  scenarioATrace ++
  [Event.succeed "a-1", Event.succeed "b-2", Event.succeed "c-3",
   Event.process,
   Event.fail "d-4" ⟨true, some "server says no", "request failed"⟩,
   Event.fail "e-5" ⟨true, none, "network error"⟩,
   Event.checkComplete]

/-- One file is added, enqueued and admitted, and its transport call fails. -/
def cancelTokenTrace : List Event :=
  [Event.addFiles [("a", "1")], Event.enqueue ["a-1"], Event.process,
   Event.fail "a-1" ⟨true, some "boom", "x"⟩]

/-- A progress event arriving after cancellation: the upload reaches progress
42, the user cancels, and a late progress callback of the same transport call
reports 80 of 100 bytes. -/
def lateProgressTrace : List Event :=
  [Event.addFiles [("a", "1")], Event.enqueue ["a-1"], Event.process,
   Event.progress "a-1" 42 100, Event.cancel "a-1",
   Event.progress "a-1" 80 100]

/-! ### Claim theorems -/

/-- C1: in every reachable state of the upload queue — after any sequence of
file-management calls, admission passes and transport events — the size of the
`activeUploads` set never exceeds the configured `maxConcurrentUploads`, and
one admission pass dispatches at most
`maxConcurrentUploads - |activeUploads|` new uploads. -/
theorem activeUploads_never_exceed_max (maxConc : Nat) (evs : List Event) :
    (run maxConc evs).activeUploads.length ≤ maxConc
  ∧ ∀ s : UploadState,
      (processQueue s).dispatched.length
        ≤ s.dispatched.length
          + (s.maxConcurrentUploads - s.activeUploads.length) := by
  constructor
  · have h := (inv_run maxConc evs).1
    rwa [run_maxConc maxConc evs] at h
  · intro s
    unfold processQueue
    split
    · omega
    · dsimp only
      rw [foldl_start_dispatched, List.length_append]
      have hlen : ((s.uploadQueue.filter (fun id =>
          statusOf s id = some UploadStatus.pending)).take
            (s.maxConcurrentUploads - s.activeUploads.length)).length
          ≤ s.maxConcurrentUploads - s.activeUploads.length := by
        rw [List.length_take]
        exact Nat.min_le_left _ _
      omega

/-- C2 (code bug): the batch summary can never report a positive `successful`
count. No reachable state contains a file with status `completed` — the
success resolution removes the file from `acceptedFiles` before the completion
effect counts — so for the specification's Scenario C batch (3 transport
successes, 2 failures) the reported summary is `{successful := 0, failed := 2}`
rather than `{successful := 3, failed := 2}`. -/
theorem batchCompletion_successful_always_zero :
    (∀ (maxConc : Nat) (evs : List Event),
      ∀ f ∈ (run maxConc evs).acceptedFiles, f.status ≠ UploadStatus.completed)
  ∧ (run defaultMaxConcurrentUploads scenarioCTrace).uploadComplete
      = some (0, 2) := by
  constructor
  · intro maxConc evs f hf
    exact ((inv_run maxConc evs).2 f hf).2
  · decide

/-- Witness for C2: the freshly added candidate of a one-event trace is in the
reachable accepted set and its status is not `completed`. -/
theorem batchCompletion_successful_always_zero_witness :
    (⟨"a-1", UploadStatus.pending, 0, none⟩ : UploadedFile)
        ∈ (run 3 [Event.addFiles [("a", "1")]]).acceptedFiles
  ∧ (⟨"a-1", UploadStatus.pending, 0, none⟩ : UploadedFile).status
        ≠ UploadStatus.completed :=
  ⟨by decide,
   batchCompletion_successful_always_zero.1 3 [Event.addFiles [("a", "1")]]
     ⟨"a-1", UploadStatus.pending, 0, none⟩ (by decide)⟩

/-- C3 (counterexample): in the reachable state after `cancelTokenTrace` the
candidate has status `failed` and yet its `cancelTokenSource` is still
defined, refuting the claim that a cancellation handle exists if and only if
the status is `uploading`. -/
theorem cancelToken_after_failed_cex :
    statusOf (run 3 cancelTokenTrace) "a-1" = some UploadStatus.failed
  ∧ (findFile (run 3 cancelTokenTrace) "a-1").map
      (fun f => f.cancelTokenSource.isSome) = some true := by
  decide

/-- C3 (amended): in every reachable state a candidate with status `uploading`
carries a cancellation handle, but the converse direction fails because the
handle is never cleared: the failure and cancellation resolutions and
`cancelUpload` all leave every candidate's `cancelTokenSource` unchanged
(successfully completed candidates are removed outright). -/
theorem cancelToken_of_uploading (maxConc : Nat) (evs : List Event) :
    (∀ f ∈ (run maxConc evs).acceptedFiles,
        f.status = UploadStatus.uploading → f.cancelTokenSource.isSome)
  ∧ (∀ (s : UploadState) (id : String) (e : TransportError),
      (settleFailure s id e).acceptedFiles.map (fun f => f.cancelTokenSource)
        = s.acceptedFiles.map (fun f => f.cancelTokenSource))
  ∧ (∀ (s : UploadState) (id : String),
      (settleCancel s id).acceptedFiles.map (fun f => f.cancelTokenSource)
        = s.acceptedFiles.map (fun f => f.cancelTokenSource))
  ∧ (∀ (s : UploadState) (id : String),
      (cancelUpload s id).acceptedFiles.map (fun f => f.cancelTokenSource)
        = s.acceptedFiles.map (fun f => f.cancelTokenSource)) := by
  refine ⟨?_, ?_, ?_, ?_⟩
  · intro f hf hs
    exact ((inv_run maxConc evs).2 f hf).1 hs
  · intro s id e
    exact map_proj_updateById s.acceptedFiles id _ _ (fun f => rfl)
  · intro s id
    exact map_proj_updateById s.acceptedFiles id _ _ (fun f => rfl)
  · intro s id
    exact map_proj_updateById s.acceptedFiles id _ _ (fun f => rfl)

/-- Witness for C3 (amended): the candidate admitted by a three-event trace is
uploading and indeed carries a handle. -/
theorem cancelToken_of_uploading_witness :
    ((⟨"a-1", UploadStatus.uploading, 0, some ()⟩ : UploadedFile)
        ∈ (run 3 [Event.addFiles [("a", "1")], Event.enqueue ["a-1"],
            Event.process]).acceptedFiles)
  ∧ (some () : Option Unit).isSome :=
  ⟨by decide,
   (cancelToken_of_uploading 3 [Event.addFiles [("a", "1")],
       Event.enqueue ["a-1"], Event.process]).1
     ⟨"a-1", UploadStatus.uploading, 0, some ()⟩ (by decide) rfl⟩

/-- C4 (counterexample): right after the cancellation the candidate is
`cancelled` with progress 42, yet the late progress event still overwrites the
progress to 80 — the `onUploadProgress` handler has no status guard — refuting
the claim that a progress event arriving after cancellation leaves the
progress unchanged. -/
theorem progress_after_cancel_cex :
    statusOf (run 3 (lateProgressTrace.take 5)) "a-1"
        = some UploadStatus.cancelled
  ∧ progressOf (run 3 (lateProgressTrace.take 5)) "a-1" = some 42
  ∧ statusOf (run 3 lateProgressTrace) "a-1" = some UploadStatus.cancelled
  ∧ progressOf (run 3 lateProgressTrace) "a-1" = some 80 := by
  decide

/-- C4 (amended): a progress event with a truthy total updates the matching
candidate's progress to the rounded percentage regardless of the candidate's
status, leaves every candidate's status unchanged, and with a zero total
changes nothing at all. -/
theorem onUploadProgress_ignores_status (s : UploadState) (id : String)
    (loaded total : Nat) (f : UploadedFile) :
    (total ≠ 0 → findFile s id = some f →
      findFile (onUploadProgress s id loaded total) id
        = some { f with progress := jsRound100 loaded total })
  ∧ (onUploadProgress s id loaded total).acceptedFiles.map (fun g => g.status)
      = s.acceptedFiles.map (fun g => g.status)
  ∧ onUploadProgress s id loaded 0 = s := by
  refine ⟨?_, ?_, ?_⟩
  · intro ht hf
    unfold onUploadProgress
    rw [if_neg ht]
    unfold findFile at *
    exact find?_updateById_eq_some s.acceptedFiles id
      (fun g => { g with progress := jsRound100 loaded total }) (fun g => rfl) f hf
  · unfold onUploadProgress
    split
    · rfl
    · exact map_proj_updateById s.acceptedFiles id _ _ (fun g => rfl)
  · unfold onUploadProgress
    rw [if_pos rfl]

/-- Witness for C4 (amended): applied to the cancelled candidate of
`lateProgressTrace` after five events, the late 80-of-100 progress event
overwrites its progress with 80. -/
theorem onUploadProgress_ignores_status_witness :
    findFile (onUploadProgress (run 3 (lateProgressTrace.take 5)) "a-1" 80 100)
        "a-1"
      = some ⟨"a-1", UploadStatus.cancelled, 80, some ()⟩ :=
  ((onUploadProgress_ignores_status (run 3 (lateProgressTrace.take 5)) "a-1"
      80 100 ⟨"a-1", UploadStatus.cancelled, 42, some ()⟩).1
    (by decide) (by decide)).trans (by decide)

/-- C8: Scenario A — with `maxConcurrentUploads = 3`, after adding five
candidates and enqueueing all of them, exactly the first three in FIFO queue
order are uploading and occupy the active set, the last two stay pending, a
further admission pass with all slots busy changes nothing, and once one
active upload settles, the next pending candidate in queue order (and only it)
is admitted. -/
theorem scenarioA_admits_first_three :
    statusOf (run defaultMaxConcurrentUploads scenarioATrace) "a-1"
        = some UploadStatus.uploading
  ∧ statusOf (run defaultMaxConcurrentUploads scenarioATrace) "b-2"
        = some UploadStatus.uploading
  ∧ statusOf (run defaultMaxConcurrentUploads scenarioATrace) "c-3"
        = some UploadStatus.uploading
  ∧ statusOf (run defaultMaxConcurrentUploads scenarioATrace) "d-4"
        = some UploadStatus.pending
  ∧ statusOf (run defaultMaxConcurrentUploads scenarioATrace) "e-5"
        = some UploadStatus.pending
  ∧ (run defaultMaxConcurrentUploads scenarioATrace).activeUploads
        = ["a-1", "b-2", "c-3"]
  ∧ (run defaultMaxConcurrentUploads scenarioATrace).dispatched
        = ["a-1", "b-2", "c-3"]
  ∧ processQueue (run defaultMaxConcurrentUploads scenarioATrace)
        = run defaultMaxConcurrentUploads scenarioATrace
  ∧ statusOf (run defaultMaxConcurrentUploads
        (scenarioATrace ++ [Event.succeed "a-1", Event.process])) "d-4"
        = some UploadStatus.uploading
  ∧ statusOf (run defaultMaxConcurrentUploads
        (scenarioATrace ++ [Event.succeed "a-1", Event.process])) "e-5"
        = some UploadStatus.pending := by
  decide

end MediaLibrary

namespace MediaLibrary

/-- C5: `uploadFiles` is idempotent — the second call with the same candidate
list is a complete no-op on the state; when none of the ids is queued yet the
double call leaves the queue holding each candidate of a duplicate-free list
exactly once; and from a state with an empty queue, empty active set and
enough slots, the double call followed by an admission pass dispatches each
candidate exactly once — the pass dispatches precisely the list, and a second
admission pass changes nothing. -/
theorem uploadFiles_idempotent (s : UploadState) (ids : List String) :
    uploadFiles (uploadFiles s ids) ids = uploadFiles s ids
  ∧ ((∀ j ∈ ids, j ∉ s.uploadQueue) →
      (uploadFiles (uploadFiles s ids) ids).uploadQueue = s.uploadQueue ++ ids)
  ∧ (ids.Nodup → (∀ j ∈ ids, j ∉ s.uploadQueue) → ∀ i ∈ ids,
      (uploadFiles (uploadFiles s ids) ids).uploadQueue.count i
        = s.uploadQueue.count i + 1)
  ∧ (s.uploadQueue = [] → s.activeUploads = [] → s.dispatched = [] →
      ids.Nodup → (∀ i ∈ ids, statusOf s i = some UploadStatus.pending) →
      ids.length ≤ s.maxConcurrentUploads →
        (processQueue (uploadFiles (uploadFiles s ids) ids)).dispatched = ids
      ∧ processQueue (processQueue (uploadFiles (uploadFiles s ids) ids))
          = processQueue (uploadFiles (uploadFiles s ids) ids)) := by
  have hmem : ∀ j ∈ ids,
      j ∈ s.uploadQueue ++ ids.filter (fun id => id ∉ s.uploadQueue) := by
    intro j hj
    by_cases hq : j ∈ s.uploadQueue
    · exact List.mem_append_left _ hq
    · refine List.mem_append_right _ ?_
      rw [List.mem_filter]
      exact ⟨hj, by simpa using hq⟩
  have hB : ids.filter (fun id =>
      id ∉ s.uploadQueue ++ ids.filter (fun id => id ∉ s.uploadQueue)) = [] := by
    rw [List.filter_eq_nil_iff]
    intro a ha
    simp only [decide_eq_true_eq]
    exact fun hc => hc (hmem a ha)
  have h1 : uploadFiles (uploadFiles s ids) ids = uploadFiles s ids := by
    show ({ s with uploadQueue :=
        (s.uploadQueue ++ ids.filter (fun id => id ∉ s.uploadQueue))
          ++ ids.filter (fun id =>
            id ∉ s.uploadQueue ++ ids.filter (fun id => id ∉ s.uploadQueue)) }
      : UploadState)
      = { s with uploadQueue :=
            s.uploadQueue ++ ids.filter (fun id => id ∉ s.uploadQueue) }
    rw [hB, List.append_nil]
  have h2 : (∀ j ∈ ids, j ∉ s.uploadQueue) →
      (uploadFiles (uploadFiles s ids) ids).uploadQueue = s.uploadQueue ++ ids := by
    intro hfresh
    rw [h1]
    show s.uploadQueue ++ ids.filter (fun id => id ∉ s.uploadQueue)
      = s.uploadQueue ++ ids
    congr 1
    rw [List.filter_eq_self]
    intro a ha
    simpa using hfresh a ha
  refine ⟨h1, h2, ?_, ?_⟩
  · intro hnodup hfresh i hi
    rw [h2 hfresh, List.count_append, List.count_eq_one_of_mem hnodup hi]
  · intro hq ha hd hnodup hpend hlen
    rw [h1]
    have hq2 : (uploadFiles s ids).uploadQueue = ids := by
      show s.uploadQueue ++ ids.filter (fun id => id ∉ s.uploadQueue) = ids
      rw [hq]
      rw [List.nil_append, List.filter_eq_self]
      intro a _
      simp
    have hstat : ∀ i ∈ ids,
        statusOf (uploadFiles s ids) i = some UploadStatus.pending :=
      fun i hi => hpend i hi
    have hfind : ∀ i ∈ ids, (findFile (uploadFiles s ids) i).isSome := by
      intro i hi
      have h := hstat i hi
      unfold statusOf at h
      cases hf : findFile (uploadFiles s ids) i with
      | none => rw [hf] at h; exact absurd h (by simp)
      | some f => rfl
    by_cases hids : ids = []
    · subst hids
      have hpq : processQueue (uploadFiles s []) = uploadFiles s [] := by
        unfold processQueue
        rw [if_pos]
        left
        rw [hq2]
        rfl
      refine ⟨?_, ?_⟩
      · rw [hpq]
        exact hd
      · rw [hpq, hpq]
    · have hlenpos : 0 < ids.length := List.length_pos.mpr hids
      have hactive : (uploadFiles s ids).activeUploads = [] := ha
      have hmax : (uploadFiles s ids).maxConcurrentUploads
          = s.maxConcurrentUploads := rfl
      have hguard : ¬ ((uploadFiles s ids).uploadQueue.length = 0 ∨
          (uploadFiles s ids).activeUploads.length
            ≥ (uploadFiles s ids).maxConcurrentUploads) := by
        rw [hq2, hactive, hmax]
        simp only [List.length_nil]
        omega
      have hpend2 : (uploadFiles s ids).uploadQueue.filter
          (fun id => statusOf (uploadFiles s ids) id = some UploadStatus.pending)
          = ids := by
        rw [hq2, List.filter_eq_self]
        intro a ha2
        simp [hstat a ha2]
      have htake : ((uploadFiles s ids).uploadQueue.filter
          (fun id => statusOf (uploadFiles s ids) id
            = some UploadStatus.pending)).take
            ((uploadFiles s ids).maxConcurrentUploads
              - (uploadFiles s ids).activeUploads.length) = ids := by
        rw [hpend2, hactive, hmax]
        simp only [List.length_nil, Nat.sub_zero]
        exact List.take_of_length_le hlen
      have hpq : processQueue (uploadFiles s ids)
          = ids.foldl uploadFileStart (uploadFiles s ids) := by
        unfold processQueue
        rw [if_neg hguard]
        dsimp only
        rw [htake]
      refine ⟨?_, ?_⟩
      · rw [hpq, foldl_start_dispatched]
        show (uploadFiles s ids).dispatched ++ ids = ids
        have hd2 : (uploadFiles s ids).dispatched = [] := hd
        rw [hd2, List.nil_append]
      · rw [hpq]
        have hq3 : (ids.foldl uploadFileStart (uploadFiles s ids)).uploadQueue
            = ids := by
          rw [foldl_start_queue]
          exact hq2
        have hstat3 : ∀ i ∈ ids,
            statusOf (ids.foldl uploadFileStart (uploadFiles s ids)) i
              = some UploadStatus.uploading := by
          intro i hi
          exact statusOf_foldl_start_of_mem ids _ i hi (hfind i hi)
        unfold processQueue
        split
        · rfl
        · dsimp only
          have hpend3 : (ids.foldl uploadFileStart
              (uploadFiles s ids)).uploadQueue.filter
              (fun id => statusOf (ids.foldl uploadFileStart (uploadFiles s ids)) id
                = some UploadStatus.pending) = [] := by
            rw [hq3, List.filter_eq_nil_iff]
            intro a ha3
            simp [hstat3 a ha3]
          rw [hpend3]
          simp

/-- Witness for C5: from the initial state with two fresh pending candidates,
the double `uploadFiles` call followed by one admission pass dispatches
exactly the two candidates. -/
theorem uploadFiles_idempotent_witness :
    (processQueue (uploadFiles (uploadFiles
        (run 3 [Event.addFiles [("a", "1"), ("b", "2")]]) ["a-1", "b-2"])
        ["a-1", "b-2"])).dispatched = ["a-1", "b-2"] :=
  ((uploadFiles_idempotent (run 3 [Event.addFiles [("a", "1"), ("b", "2")]])
      ["a-1", "b-2"]).2.2.2
    (by decide) (by decide) (by decide) (by decide) (by decide) (by decide)).1

end MediaLibrary

namespace MediaLibrary

/-- C6: `retryUpload` on a candidate in status `failed` or `cancelled` resets
its status to `pending` and its progress to 0, deletes its stored error
message, and re-enters it into the upload queue; on a missing candidate or one
in any other status it changes nothing; and once a slot is free (here: empty
active set and queue before the retry, a positive concurrency bound) the next
admission pass re-admits exactly the retried candidate. -/
theorem retryUpload_spec (s : UploadState) (id : String) (f : UploadedFile) :
    (findFile s id = some f →
      (f.status = UploadStatus.failed ∨ f.status = UploadStatus.cancelled) →
        statusOf (retryUpload s id) id = some UploadStatus.pending
      ∧ progressOf (retryUpload s id) id = some 0
      ∧ mapGet (retryUpload s id).uploadErrors id = none
      ∧ id ∈ (retryUpload s id).uploadQueue)
  ∧ (findFile s id = some f → f.status ≠ UploadStatus.failed →
      f.status ≠ UploadStatus.cancelled → retryUpload s id = s)
  ∧ (findFile s id = none → retryUpload s id = s)
  ∧ (findFile s id = some f →
      (f.status = UploadStatus.failed ∨ f.status = UploadStatus.cancelled) →
      s.activeUploads = [] → s.uploadQueue = [] →
      1 ≤ s.maxConcurrentUploads →
        statusOf (processQueue (retryUpload s id)) id
            = some UploadStatus.uploading
      ∧ id ∈ (processQueue (retryUpload s id)).activeUploads) := by
  refine ⟨?_, ?_, ?_, ?_⟩
  · intro hf hst
    have hr : retryUpload s id = { s with
        acceptedFiles := updateById s.acceptedFiles id (fun g =>
          { g with status := UploadStatus.pending, progress := 0 }),
        uploadQueue :=
          if id ∈ s.uploadQueue then s.uploadQueue else s.uploadQueue ++ [id],
        uploadErrors := mapDelete s.uploadErrors id } := by
      unfold retryUpload
      rw [hf]
      dsimp only
      rw [if_pos hst]
    rw [hr]
    have hfind : (updateById s.acceptedFiles id (fun g =>
        { g with status := UploadStatus.pending, progress := 0 })).find?
          (fun g => g.id = id)
        = some { f with status := UploadStatus.pending, progress := 0 } :=
      find?_updateById_eq_some s.acceptedFiles id
        (fun g => { g with status := UploadStatus.pending, progress := 0 })
        (fun g => rfl) f hf
    refine ⟨?_, ?_, ?_, ?_⟩
    · unfold statusOf findFile
      rw [hfind]
      rfl
    · unfold progressOf findFile
      rw [hfind]
      rfl
    · exact mapGet_mapDelete_self s.uploadErrors id
    · show id ∈ (if id ∈ s.uploadQueue then s.uploadQueue else s.uploadQueue ++ [id])
      split
      · assumption
      · exact List.mem_append_right _ (List.mem_singleton.mpr rfl)
  · intro hf h1 h2
    unfold retryUpload
    rw [hf]
    dsimp only
    rw [if_neg (fun hc => (hc.elim h1 h2 : False))]
  · intro hf
    unfold retryUpload
    rw [hf]
  · intro hf hst ha hq hmax
    have hr : retryUpload s id = { s with
        acceptedFiles := updateById s.acceptedFiles id (fun g =>
          { g with status := UploadStatus.pending, progress := 0 }),
        uploadQueue :=
          if id ∈ s.uploadQueue then s.uploadQueue else s.uploadQueue ++ [id],
        uploadErrors := mapDelete s.uploadErrors id } := by
      unfold retryUpload
      rw [hf]
      dsimp only
      rw [if_pos hst]
    have hq1 : (retryUpload s id).uploadQueue = [id] := by
      rw [hr]
      show (if id ∈ s.uploadQueue then s.uploadQueue else s.uploadQueue ++ [id]) = [id]
      rw [hq]
      simp
    have ha1 : (retryUpload s id).activeUploads = [] := by
      rw [hr]
      exact ha
    have hmax1 : (retryUpload s id).maxConcurrentUploads
        = s.maxConcurrentUploads := by
      rw [hr]
    have hfind1 : findFile (retryUpload s id) id
        = some { f with status := UploadStatus.pending, progress := 0 } := by
      rw [hr]
      exact find?_updateById_eq_some s.acceptedFiles id
        (fun g => { g with status := UploadStatus.pending, progress := 0 })
        (fun g => rfl) f hf
    have hstat1 : statusOf (retryUpload s id) id = some UploadStatus.pending := by
      unfold statusOf
      rw [hfind1]
      rfl
    have hguard : ¬ ((retryUpload s id).uploadQueue.length = 0 ∨
        (retryUpload s id).activeUploads.length
          ≥ (retryUpload s id).maxConcurrentUploads) := by
      rw [hq1, ha1, hmax1]
      simp only [List.length_singleton, List.length_nil]
      omega
    have hpend : (retryUpload s id).uploadQueue.filter
        (fun j => statusOf (retryUpload s id) j = some UploadStatus.pending)
        = [id] := by
      rw [hq1]
      rw [List.filter_eq_self]
      intro a ha2
      rw [List.mem_singleton] at ha2
      subst ha2
      simp [hstat1]
    have htake : ((retryUpload s id).uploadQueue.filter
        (fun j => statusOf (retryUpload s id) j
          = some UploadStatus.pending)).take
          ((retryUpload s id).maxConcurrentUploads
            - (retryUpload s id).activeUploads.length) = [id] := by
      rw [hpend, ha1, hmax1]
      simp only [List.length_nil, Nat.sub_zero]
      exact List.take_of_length_le (by simpa using hmax)
    have hpq : processQueue (retryUpload s id)
        = uploadFileStart (retryUpload s id) id := by
      unfold processQueue
      rw [if_neg hguard]
      dsimp only
      rw [htake]
      rfl
    rw [hpq]
    constructor
    · apply statusOf_uploadFileStart_self
      rw [hfind1]
      rfl
    · show id ∈ setAdd (retryUpload s id).activeUploads id
      unfold setAdd
      split
      · assumption
      · simp

/-- Witness for C6: retrying the failed candidate of `cancelTokenTrace`
resets it to pending, and the next admission pass re-admits it. -/
theorem retryUpload_spec_witness :
    statusOf (retryUpload (run 3 cancelTokenTrace) "a-1") "a-1"
        = some UploadStatus.pending
  ∧ statusOf (processQueue (retryUpload (run 3 cancelTokenTrace) "a-1")) "a-1"
        = some UploadStatus.uploading :=
  ⟨((retryUpload_spec (run 3 cancelTokenTrace) "a-1"
        ⟨"a-1", UploadStatus.failed, 0, some ()⟩).1
      (by decide) (Or.inl rfl)).1,
   ((retryUpload_spec (run 3 cancelTokenTrace) "a-1"
        ⟨"a-1", UploadStatus.failed, 0, some ()⟩).2.2.2
      (by decide) (Or.inl rfl) (by decide) (by decide) (by decide)).1⟩

/-- C7: a transport failure for one candidate marks only that candidate as
`failed` and records its error message — the server-supplied message when
available and non-empty, else the axios error message, else the generic
`"Upload failed"` — while every other candidate keeps its lookup entry
(hence status and progress), its queue membership, its active-set membership
and its stored error; the transition is total, so the failure never aborts
sibling uploads or the controller itself. -/
theorem settleFailure_isolated (s : UploadState) (id : String)
    (e : TransportError) :
    (∀ f, findFile s id = some f →
      statusOf (settleFailure s id e) id = some UploadStatus.failed)
  ∧ mapGet (settleFailure s id e).uploadErrors id = some (errorMessageOf e)
  ∧ (∀ (m msg : String), m ≠ "" →
      errorMessageOf ⟨true, some m, msg⟩ = m)
  ∧ (∀ msg : String, errorMessageOf ⟨true, none, msg⟩ = msg)
  ∧ (∀ (sm : Option String) (msg : String),
      errorMessageOf ⟨false, sm, msg⟩ = "Upload failed")
  ∧ (∀ j, j ≠ id →
        findFile (settleFailure s id e) j = findFile s j
      ∧ (j ∈ (settleFailure s id e).uploadQueue ↔ j ∈ s.uploadQueue)
      ∧ (j ∈ (settleFailure s id e).activeUploads ↔ j ∈ s.activeUploads)
      ∧ mapGet (settleFailure s id e).uploadErrors j
          = mapGet s.uploadErrors j) := by
  refine ⟨?_, ?_, ?_, ?_, ?_, ?_⟩
  · intro f hf
    unfold statusOf findFile
    have hfind : (updateById s.acceptedFiles id (fun g =>
        { g with status := UploadStatus.failed })).find? (fun g => g.id = id)
        = some { f with status := UploadStatus.failed } :=
      find?_updateById_eq_some s.acceptedFiles id
        (fun g => { g with status := UploadStatus.failed }) (fun g => rfl) f hf
    rw [show (settleFailure s id e).acceptedFiles
        = updateById s.acceptedFiles id (fun g =>
            { g with status := UploadStatus.failed }) from rfl, hfind]
    rfl
  · exact mapGet_mapSet_self s.uploadErrors id (errorMessageOf e)
  · intro m msg hm
    simp [errorMessageOf, jsOrElse, hm]
  · intro msg
    simp [errorMessageOf, jsOrElse]
  · intro sm msg
    simp [errorMessageOf]
  · intro j hj
    refine ⟨?_, ?_, ?_, ?_⟩
    · show (updateById s.acceptedFiles id (fun g =>
          { g with status := UploadStatus.failed })).find? (fun g => g.id = j)
        = s.acceptedFiles.find? (fun g => g.id = j)
      exact find?_updateById_ne s.acceptedFiles id
        (fun g => { g with status := UploadStatus.failed }) (fun g => rfl) j hj
    · show j ∈ s.uploadQueue.filter (fun q => q ≠ id) ↔ j ∈ s.uploadQueue
      constructor
      · intro h
        exact (List.mem_filter.mp h).1
      · intro h
        exact List.mem_filter.mpr ⟨h, by simpa using hj⟩
    · show j ∈ s.activeUploads.filter (fun y => y ≠ id) ↔ j ∈ s.activeUploads
      constructor
      · intro h
        exact (List.mem_filter.mp h).1
      · intro h
        exact List.mem_filter.mpr ⟨h, by simpa using hj⟩
    · exact mapGet_mapSet_ne s.uploadErrors id (errorMessageOf e) j hj

/-- Witness for C7: failing candidate `d-4` of Scenario A marks it failed with
the server's message while sibling `e-5` keeps its entry, queue slot and
active-set absence. -/
theorem settleFailure_isolated_witness :
    statusOf (settleFailure (run 3 scenarioATrace) "d-4"
        ⟨true, some "server says no", "request failed"⟩) "d-4"
      = some UploadStatus.failed
  ∧ mapGet (settleFailure (run 3 scenarioATrace) "d-4"
        ⟨true, some "server says no", "request failed"⟩).uploadErrors "d-4"
      = some "server says no"
  ∧ findFile (settleFailure (run 3 scenarioATrace) "d-4"
        ⟨true, some "server says no", "request failed"⟩) "e-5"
      = findFile (run 3 scenarioATrace) "e-5" := by
  refine ⟨?_, ?_, ?_⟩
  · exact (settleFailure_isolated (run 3 scenarioATrace) "d-4"
      ⟨true, some "server says no", "request failed"⟩).1
      ⟨"d-4", UploadStatus.pending, 0, none⟩ (by decide)
  · exact ((settleFailure_isolated (run 3 scenarioATrace) "d-4"
      ⟨true, some "server says no", "request failed"⟩).2.1).trans (by decide)
  · exact (((settleFailure_isolated (run 3 scenarioATrace) "d-4"
      ⟨true, some "server says no", "request failed"⟩).2.2.2.2.2 "e-5"
      (by decide)).1)

end MediaLibrary

namespace MediaLibrary

/-- C9 (counterexample): a 0-byte file of an accepted MIME type produces no
validation error under the configured dropzone options — no `minSize` is
passed, so the library default 0 applies and `0 ≥ 0` — hence it is accepted by
the drop handler and becomes a pending upload candidate, refuting the claim
that 0-byte files are rejected at validation. -/
theorem zeroByte_file_accepted_cex :
    dropzoneErrors defaultDropzoneOptions ⟨"empty.png", 0, "image/png"⟩ = []
  ∧ (onDrop defaultDropzoneOptions [⟨"empty.png", 0, "image/png"⟩]).1
      = [⟨"empty.png", 0, "image/png"⟩]
  ∧ (onDrop defaultDropzoneOptions [⟨"empty.png", 0, "image/png"⟩]).2 = []
  ∧ statusOf (addAcceptedFiles (initState defaultMaxConcurrentUploads)
        [("empty.png", "1")]) (mkId "empty.png" "1")
      = some UploadStatus.pending := by
  decide

/-- C9 (amended): a file whose size exceeds `maxFileSize` is rejected by the
dropzone validation with the structured code `file-too-large`: it appears in
the rejected output paired with its error codes and never in the accepted
output, so it never reaches the candidate set; 0-byte files, however, pass the
size validation. -/
theorem oversize_file_rejected (cfg : DropzoneOptions)
    (files : List BrowserFile) (f : BrowserFile) :
    (cfg.maxFileSize < f.size →
        "file-too-large" ∈ dropzoneErrors cfg f
      ∧ f ∉ (onDrop cfg files).1
      ∧ (f ∈ files → (f, dropzoneErrors cfg f) ∈ (onDrop cfg files).2))
  ∧ (f.size = 0 → ¬ "file-too-large" ∈ dropzoneErrors cfg f
      ∧ ¬ "file-too-small" ∈ dropzoneErrors cfg f) := by
  constructor
  · intro hsize
    have herr : "file-too-large" ∈ dropzoneErrors cfg f := by
      unfold dropzoneErrors
      refine List.mem_append_left _ (List.mem_append_right _ ?_)
      rw [if_pos hsize]
      exact List.mem_singleton.mpr rfl
    have hacc : dropzoneAccepts cfg f = false := by
      unfold dropzoneAccepts
      simp only [decide_eq_false_iff_not]
      intro hnil
      rw [hnil] at herr
      exact absurd herr (List.not_mem_nil _)
    refine ⟨herr, ?_, ?_⟩
    · intro hmem
      have h := (List.mem_filter.mp hmem).2
      rw [hacc] at h
      exact absurd h (by simp)
    · intro hf
      show (f, dropzoneErrors cfg f)
        ∈ (files.filter (fun g => ¬ dropzoneAccepts cfg g)).map
            (fun g => (g, dropzoneErrors cfg g))
      refine List.mem_map.mpr ⟨f, ?_, rfl⟩
      exact List.mem_filter.mpr ⟨hf, by simp [hacc]⟩
  · intro hzero
    unfold dropzoneErrors
    rw [hzero]
    constructor
    · intro hmem
      rcases List.mem_append.mp hmem with h | h
      · rcases List.mem_append.mp h with h2 | h2
        · split at h2
          · exact absurd h2 (List.not_mem_nil _)
          · rw [List.mem_singleton] at h2
            exact absurd h2 (by decide)
        · split at h2
          · next hlt => exact absurd hlt (by omega)
          · exact absurd h2 (List.not_mem_nil _)
      · split at h
        · next hlt => exact absurd hlt (by decide)
        · exact absurd h (List.not_mem_nil _)
    · intro hmem
      rcases List.mem_append.mp hmem with h | h
      · rcases List.mem_append.mp h with h2 | h2
        · split at h2
          · exact absurd h2 (List.not_mem_nil _)
          · rw [List.mem_singleton] at h2
            exact absurd h2 (by decide)
        · split at h2
          · rw [List.mem_singleton] at h2
            exact absurd h2 (by decide)
          · exact absurd h2 (List.not_mem_nil _)
      · split at h
        · next hlt => exact absurd hlt (by decide)
        · exact absurd h (List.not_mem_nil _)

/-- Witness for C9 (amended): an 11-MB PNG is rejected with `file-too-large`
under the default options and does not appear among the accepted files. -/
theorem oversize_file_rejected_witness :
    "file-too-large" ∈ dropzoneErrors defaultDropzoneOptions
        ⟨"big.png", 11 * 1024 * 1024, "image/png"⟩
  ∧ (⟨"big.png", 11 * 1024 * 1024, "image/png"⟩ : BrowserFile)
      ∉ (onDrop defaultDropzoneOptions
          [⟨"big.png", 11 * 1024 * 1024, "image/png"⟩]).1 :=
  ⟨((oversize_file_rejected defaultDropzoneOptions
        [⟨"big.png", 11 * 1024 * 1024, "image/png"⟩]
        ⟨"big.png", 11 * 1024 * 1024, "image/png"⟩).1 (by decide)).1,
   ((oversize_file_rejected defaultDropzoneOptions
        [⟨"big.png", 11 * 1024 * 1024, "image/png"⟩]
        ⟨"big.png", 11 * 1024 * 1024, "image/png"⟩).1 (by decide)).2.1⟩

/-- C10 (counterexample): `getFileKey` is not deterministic on the
(name, size, lastModified) triple for every non-null file: a file whose
`lastModified` is 0 (the epoch, falsy in JS) falls back to `Date.now()`, so
two calls at different times yield different keys, and neither equals
`name-size-lastModified`. -/
theorem getFileKey_nondeterministic_cex :
    getFileKey ⟨"a.png", 7, 0⟩ 1 ≠ getFileKey ⟨"a.png", 7, 0⟩ 2
  ∧ getFileKey ⟨"a.png", 7, 0⟩ 1 ≠ "a.png-7-0"
  ∧ getFileKey ⟨"", 7, 5⟩ 1 ≠ "-7-5" := by
  decide

/-- C10 (amended): for a non-null file with a non-empty name and a non-zero
`lastModified`, `getFileKey` returns exactly `name-size-lastModified`
independently of the call time, so repeated calls agree and any two files
agreeing on the triple receive the same key (and therefore share one
preview-URL map entry and one image-error flag, both of which are keyed by
this string). -/
theorem getFileKey_deterministic (f g : FileInfo) (now now2 : Nat) :
    f.name ≠ "" → f.lastModified ≠ 0 →
      getFileKey f now
          = f.name ++ "-" ++ toString f.size ++ "-" ++ toString f.lastModified
      ∧ getFileKey f now = getFileKey f now2
      ∧ (g.name = f.name → g.size = f.size → g.lastModified = f.lastModified →
          getFileKey g now2 = getFileKey f now) := by
  intro hname hlm
  have hkey : ∀ n : Nat, getFileKey f n
      = f.name ++ "-" ++ toString f.size ++ "-" ++ toString f.lastModified := by
    intro n
    unfold getFileKey
    rw [if_neg hname, if_neg hlm]
  refine ⟨hkey now, (hkey now).trans (hkey now2).symm, ?_⟩
  intro h1 h2 h3
  have hgname : g.name ≠ "" := by rw [h1]; exact hname
  have hglm : g.lastModified ≠ 0 := by rw [h3]; exact hlm
  have hgkey : getFileKey g now2
      = g.name ++ "-" ++ toString g.size ++ "-" ++ toString g.lastModified := by
    unfold getFileKey
    rw [if_neg hgname, if_neg hglm]
  rw [hgkey, hkey now, h1, h2, h3]

/-- Witness for C10 (amended): two distinct file records agreeing on
(name, size, lastModified) get the same key at different call times. -/
theorem getFileKey_deterministic_witness :
    getFileKey ⟨"a.png", 7, 5⟩ 99 = "a.png-7-5"
  ∧ getFileKey ⟨"a.png", 7, 5⟩ 123 = getFileKey ⟨"a.png", 7, 5⟩ 99 :=
  ⟨((getFileKey_deterministic ⟨"a.png", 7, 5⟩ ⟨"a.png", 7, 5⟩ 99 123
      (by decide) (by decide)).1).trans (by decide),
   (getFileKey_deterministic ⟨"a.png", 7, 5⟩ ⟨"a.png", 7, 5⟩ 99 123
      (by decide) (by decide)).2.2 rfl rfl rfl⟩

end MediaLibrary
